import Mathlib

/-!
Shallow embedding of the crawl-and-download engine of `litReview.py`
(class `PaperFetcher`).  Pure data-flow parts of the program (the PDF-source
resolver chain, the filename-collision loop, the metadata retry loop) are
embedded as pure Lean functions over explicit oracles for the HTTP providers.
The recursive, concurrently fanned-out crawler `process_paper` is embedded as
a small-step task machine: each `await` boundary of a `process_paper`
invocation is a suspension point, the pending invocations form a task list,
and a schedule (a list of task indices) picks which pending task makes the
next step.  This captures every interleaving the asyncio event loop can
produce (and more), so universally quantified theorems over all schedules
cover all real executions, while counterexample schedules are chosen to
correspond to realizable network timings.
-/

namespace LitReview

/-- Truthiness of an optional string exactly as Python evaluates it in an
`if x:` test: `None` and the empty string are falsy. -/
def pyTruthy : Option String → Bool
  | some s => s != ""
  | none => false

/-- Value of an optional string, defaulting to the empty string (used only
where the surrounding code has already established truthiness). -/
def orEmpty : Option String → String
  | some s => s
  | none => ""

/-- The recognized keys of the `externalIds` mapping of a paper
(`paper_data['externalIds']`), lines 78-97 of `litReview.py`. -/
structure ExternalIds where
  arxiv : Option String
  doi : Option String
  deriving DecidableEq

/-- The `openAccessPdf` object of the metadata (`paper_data['openAccessPdf']`),
line 117-118: a dict whose `url` key may be absent or null.  An empty dict
(falsy in Python) is represented as `⟨none⟩`, which yields the same
`pdf_url = None` outcome as the falsy branch. -/
structure OpenAccessPdf where
  url : Option String
  deriving DecidableEq

/-- The slice of a paper-metadata dict read by `download_pdf` and
`try_alternative_sources` (lines 73-129). -/
structure PaperData where
  paperId : Option String
  title : Option String
  externalIds : Option ExternalIds
  openAccessPdf : Option OpenAccessPdf
  deriving DecidableEq

/-- Embedding of `paper_data.get('externalIds', {}).get('ArXiv')` (line 78). -/
def arxivIdOf (d : PaperData) : Option String :=
  match d.externalIds with
  | some e => e.arxiv
  | none => none

/-- Embedding of `paper_data.get('externalIds', {}).get('DOI')` (lines 86, 96). -/
def doiOf (d : PaperData) : Option String :=
  match d.externalIds with
  | some e => e.doi
  | none => none

/-- The arXiv PDF URL built on line 80 of `litReview.py`. -/
def arxivUrl (aid : String) : String :=
  "https://arxiv.org/pdf/" ++ aid ++ ".pdf"

/-- Abstraction of one provider HTTP response: its status plus the one field
of the JSON body the code reads (`best_oa_location.url_for_pdf` for
Unpaywall, `results[0].downloadUrl` for CORE, absent when the response shape
lacks it). -/
structure ProvResp where
  status : Nat
  pdfUrl : Option String
  deriving DecidableEq

/-- Oracles for the three fallback-provider HTTP calls of
`try_alternative_sources` (lines 81, 89, 99).  `Except.error ()` models the
call (or its body parsing) raising an exception - network error, timeout or
unexpected response shape. -/
structure Providers where
  arxivGet : String → Except Unit Nat
  unpaywallGet : String → Except Unit ProvResp
  coreGet : String → Except Unit ProvResp

/-- Labels for the fallback providers, used to trace which provider calls
were actually issued. -/
inductive Prov where
  | arxiv
  | unpaywall
  | core
  deriving DecidableEq

/-- The CORE step of `try_alternative_sources` (lines 96-103): consulted only
when a DOI is present; on an exception the enclosing `try` of lines 75-108
returns `None` for the whole chain, which at this last step coincides with
producing no answer.  Returns the found URL (if any) together with the trace
of provider calls issued from this point on. -/
def coreStep (p : Providers) (d : PaperData) : Option String × List Prov :=
  if pyTruthy (doiOf d) then
    match p.coreGet (orEmpty (doiOf d)) with
    | Except.error _ => (none, [Prov.core])
    | Except.ok r =>
      if r.status = 200 then
        if pyTruthy r.pdfUrl then (r.pdfUrl, [Prov.core]) else (none, [Prov.core])
      else (none, [Prov.core])
  else (none, [])

/-- The Unpaywall step of `try_alternative_sources` (lines 86-93) followed by
the CORE step.  An exception inside the Unpaywall call is caught by the
single `try` wrapping the whole chain (line 106-108), so it yields `None`
without the CORE step ever running. -/
def unpaywallStep (p : Providers) (d : PaperData) : Option String × List Prov :=
  if pyTruthy (doiOf d) then
    match p.unpaywallGet (orEmpty (doiOf d)) with
    | Except.error _ => (none, [Prov.unpaywall])
    | Except.ok r =>
      if r.status = 200 then
        if pyTruthy r.pdfUrl then (r.pdfUrl, [Prov.unpaywall])
        else
          let rest := coreStep p d
          (rest.1, Prov.unpaywall :: rest.2)
      else
        let rest := coreStep p d
        (rest.1, Prov.unpaywall :: rest.2)
  else coreStep p d

/-- Embedding of `try_alternative_sources` (lines 73-108): the arXiv probe,
then Unpaywall, then CORE, the whole chain wrapped in one `try/except` that
turns any exception into `None`.  The second component records, in order,
which provider calls were issued. -/
def try_alternative_sources (p : Providers) (d : PaperData) : Option String × List Prov :=
  if pyTruthy (arxivIdOf d) then
    match p.arxivGet (arxivUrl (orEmpty (arxivIdOf d))) with
    | Except.error _ => (none, [Prov.arxiv])
    | Except.ok st =>
      if st = 200 then (some (arxivUrl (orEmpty (arxivIdOf d))), [Prov.arxiv])
      else
        let rest := unpaywallStep p d
        (rest.1, Prov.arxiv :: rest.2)
  else unpaywallStep p d

/-- The PDF-URL resolution prefix of `download_pdf` (lines 116-129): take the
`openAccessPdf.url` when it is truthy, otherwise fall back to
`try_alternative_sources`; a falsy final URL means no download happens
(`return False` on line 129).  The second component is the provider-call
trace (empty when the open-access URL is used directly). -/
def resolve_pdf_url (p : Providers) (d : PaperData) : Option String × List Prov :=
  let pdfUrl : Option String :=
    match d.openAccessPdf with
    | some oap => oap.url
    | none => none
  if pyTruthy pdfUrl then (pdfUrl, [])
  else
    let alt := try_alternative_sources p d
    if pyTruthy alt.1 then (alt.1, alt.2) else (none, alt.2)

/-- The sequence of candidate file paths tried by the collision loop of
`download_pdf` (lines 140-144): candidate 0 is `base ++ ext`, candidate `i`
for `i ≥ 1` is `base ++ "_" ++ i ++ ext`. -/
def cand (base ext : String) : Nat → String
  | 0 => base ++ ext
  | k + 1 => base ++ "_" ++ toString (k + 1) ++ ext

/-- The body of the `while os.path.exists(filepath)` loop (lines 142-144),
with explicit fuel standing for the number of iterations the unbounded
Python loop is allowed; `existing` is the set of paths present on disk. -/
def collisionGo (existing : List String) (base ext : String) :
    String → Nat → Nat → String
  | filepath, _, 0 => filepath
  | filepath, counter, fuel + 1 =>
    if filepath ∈ existing then
      collisionGo existing base ext (base ++ "_" ++ toString counter ++ ext)
        (counter + 1) fuel
    else filepath

/-- The collision-avoidance computation of `download_pdf` (lines 139-144):
start from the resolved path `base ++ ext` with `counter = 1`. -/
def collision_avoid (existing : List String) (base ext : String) (fuel : Nat) : String :=
  collisionGo existing base ext (base ++ ext) 1 fuel

/-- One response of the metadata API as seen by one attempt of
`fetch_paper_details` (lines 171-185): a 200 with a parsed body, a bare
status code, or a raised exception. -/
inductive ApiResp where
  | ok (data : String)
  | status (code : Nat)
  | exc
  deriving DecidableEq

/-- The retry loop of `fetch_paper_details` (lines 165-190), indexed by the
attempt number; the response of attempt `n` is `resp n`.  Returns the fetched
data (or `none`) together with the list of sleep durations performed, in
order: `5 * (attempt + 1)` seconds after a 429 (line 177), 1 second after an
exception that is not on the last attempt (line 187). -/
def fetchGo (resp : Nat → ApiResp) (retries : Nat) :
    Nat → Nat → List Nat → Option String × List Nat
  | _, 0, sleeps => (none, sleeps)
  | attempt, remaining + 1, sleeps =>
    match resp attempt with
    | ApiResp.ok d => (some d, sleeps)
    | ApiResp.status code =>
      if code = 429 then
        fetchGo resp retries (attempt + 1) remaining (sleeps ++ [5 * (attempt + 1)])
      else (none, sleeps)
    | ApiResp.exc =>
      if attempt < retries - 1 then
        fetchGo resp retries (attempt + 1) remaining (sleeps ++ [1])
      else (none, sleeps)

/-- Embedding of `fetch_paper_details` (lines 162-190): `for attempt in
range(retries)` over the per-attempt responses, falling through to `None`
when the attempts are exhausted. -/
def fetch_paper_details (resp : Nat → ApiResp) (retries : Nat) : Option String × List Nat :=
  fetchGo resp retries 0 retries []

/-- The slice of a fetched metadata dict the crawler itself consumes
(lines 218-229): the `paperId` entries of `references` and `citations`. -/
structure PaperMeta where
  references : List String
  citations : List String
  deriving DecidableEq

/-- Environment of one crawl run: the metadata-fetch outcome per paper id
(`none` models `fetch_paper_details` returning `None`) and the
`download_pdf` outcome per paper id. -/
structure CrawlEnv where
  fetchRes : String → Option PaperMeta
  dl : String → Bool

/-- A pending `process_paper` invocation, identified by the suspension point
it is waiting at: `started pid depth` has been created but not yet run its
synchronous prefix (the visited/depth guard and the mark, lines 194-197);
`fetching pid depth` has passed the guard, marked `pid` visited and is
suspended awaiting `fetch_paper_details` (line 198). -/
inductive CrawlTask where
  | started (pid : String) (depth : Int)
  | fetching (pid : String) (depth : Int)
  deriving DecidableEq

/-- Global crawler state: the shared `visited_papers` set (kept as a list in
insertion order), the trace of metadata fetches issued, the trace of
`download_pdf` invocations, the ids that produced a crawl record (the
per-invocation result lists of `process_paper` are all concatenated into the
top-level crawl result, so the global multiset of records is faithful), and
the pending tasks. -/
structure CrawlState where
  visited : List String
  fetched : List String
  downloads : List String
  records : List String
  tasks : List CrawlTask
  deriving DecidableEq

/-- The child ids a node dispatches: `references` then `citations`
(lines 217-221). -/
def childIds (m : PaperMeta) : List String :=
  m.references ++ m.citations

/-- Run one resumed task to its next suspension point (or completion),
given the state with that task already removed from the task list.

For `started pid depth` this is lines 194-198 of `process_paper`: if
`pid ∈ visited` or `depth < 0`, return `[]` touching nothing; otherwise mark
`pid` visited and issue the metadata fetch (the check and the mark are
synchronous, with no `await` between them).

For `fetching pid depth` this is lines 200-232: a failed fetch ends the
invocation with `[]`; a successful one runs `download_pdf` (recording a
result entry exactly when it returns `True`) and then dispatches one child
invocation per reference/citation id at `depth - 1`. -/
def stepTask (env : CrawlEnv) (s : CrawlState) : CrawlTask → CrawlState
  | CrawlTask.started pid depth =>
    if pid ∈ s.visited ∨ depth < 0 then s
    else
      { s with
        visited := s.visited ++ [pid]
        fetched := s.fetched ++ [pid]
        tasks := s.tasks ++ [CrawlTask.fetching pid depth] }
  | CrawlTask.fetching pid depth =>
    match env.fetchRes pid with
    | none => s
    | some m =>
      { s with
        downloads := s.downloads ++ [pid]
        records := if env.dl pid then s.records ++ [pid] else s.records
        tasks := s.tasks ++ (childIds m).map (fun c => CrawlTask.started c (depth - 1)) }

/-- One scheduler step: resume the pending task at index `i` (no effect when
the index is out of range). -/
def step (env : CrawlEnv) (s : CrawlState) (i : Nat) : CrawlState :=
  match s.tasks.get? i with
  | none => s
  | some t => stepTask env { s with tasks := s.tasks.eraseIdx i } t

/-- Run the crawl under a schedule: the `n`-th entry picks which pending task
the event loop resumes next. -/
def run (env : CrawlEnv) : CrawlState → List Nat → CrawlState
  | s, [] => s
  | s, i :: rest => run env (step env s i) rest

/-- Initial state of `fetch_connected_papers` / `main`: empty shared state
and the single root invocation `process_paper(paper_id, depth)`. -/
def initState (root : String) (depth : Int) : CrawlState :=
  { visited := [], fetched := [], downloads := [], records := [],
    tasks := [CrawlTask.started root depth] }

/-- The child ids reachable from a node in one hop, as the crawler sees them
(empty when the metadata fetch for that node fails). -/
def children (env : CrawlEnv) (p : String) : List String :=
  match env.fetchRes p with
  | some m => childIds m
  | none => []

/-- Reachability in exactly `k` reference/citation edges from the root. -/
inductive ReachIn (env : CrawlEnv) (root : String) : Nat → String → Prop where
  | refl : ReachIn env root 0 root
  | step {k : Nat} {p c : String} :
      ReachIn env root k p → c ∈ children env p → ReachIn env root (k + 1) c

/-- Paper id of a pending task. -/
def taskPid : CrawlTask → String
  | CrawlTask.started pid _ => pid
  | CrawlTask.fetching pid _ => pid

/-- Remaining depth of a pending task. -/
def taskDepth : CrawlTask → Int
  | CrawlTask.started _ d => d
  | CrawlTask.fetching _ d => d

/-- The ids of tasks currently suspended in a metadata fetch. -/
def fpids (ts : List CrawlTask) : List String :=
  ts.filterMap (fun t =>
    match t with
    | CrawlTask.fetching pid _ => some pid
    | CrawlTask.started _ _ => none)

/-- Invariant carrying the at-most-once fetch/download discipline of the
shared visited set. -/
structure DedupInv (s : CrawlState) : Prop where
  fetched_nodup : s.fetched.Nodup
  downloads_nodup : s.downloads.Nodup
  fpids_nodup : (fpids s.tasks).Nodup
  fetched_vis : ∀ p, p ∈ s.fetched → p ∈ s.visited
  fpids_fetched : ∀ p, p ∈ fpids s.tasks → p ∈ s.fetched
  downloads_fetched : ∀ p, p ∈ s.downloads → p ∈ s.fetched
  downloads_fpids : ∀ p, p ∈ s.downloads → p ∉ fpids s.tasks

/-- A pending task lies at depth `N - k` for some path of length `k` from
the root. -/
def ReachTask (env : CrawlEnv) (root : String) (N : Int) (t : CrawlTask) : Prop :=
  ∃ k : Nat, taskDepth t = N - k ∧ ReachIn env root k (taskPid t)

/-- Invariant tying every visited id and every pending task to a path from
the root whose length accounts for the consumed depth. -/
structure ReachInv (env : CrawlEnv) (root : String) (N : Int) (s : CrawlState) : Prop where
  vis : ∀ p, p ∈ s.visited → ∃ k : Nat, (k : Int) ≤ N ∧ ReachIn env root k p
  tsk : ∀ t, t ∈ s.tasks → ReachTask env root N t

/-- Invariant of a crawl started with negative depth: nothing has happened
and every pending task is an unstarted invocation with negative depth. -/
def NegInv (s : CrawlState) : Prop :=
  s.visited = [] ∧ s.fetched = [] ∧ s.downloads = [] ∧ s.records = [] ∧
    ∀ t, t ∈ s.tasks → ∃ p d, t = CrawlTask.started p d ∧ d < 0

/-- Providers where the arXiv probe raises (network error) while Unpaywall
and CORE both have a direct PDF answer. -/
def provArxivDown : Providers :=
  { arxivGet := fun _ => Except.error ()
    unpaywallGet := fun _ => Except.ok { status := 200, pdfUrl := some ("https://host/unpaywall.pdf") }
    coreGet := fun _ => Except.ok { status := 200, pdfUrl := some ("https://host/core.pdf") } }

/-- Providers where the arXiv probe answers 404, the Unpaywall call raises,
and CORE has an answer. -/
def provUnpaywallDown : Providers :=
  { arxivGet := fun _ => Except.ok 404
    unpaywallGet := fun _ => Except.error ()
    coreGet := fun _ => Except.ok { status := 200, pdfUrl := some ("https://host/core.pdf") } }

/-- Providers where every call succeeds with a 200 answer. -/
def provAllOk : Providers :=
  { arxivGet := fun _ => Except.ok 200
    unpaywallGet := fun _ => Except.ok { status := 200, pdfUrl := some ("https://host/unpaywall.pdf") }
    coreGet := fun _ => Except.ok { status := 200, pdfUrl := some ("https://host/core.pdf") } }

/-- A paper carrying both a valid arXiv id and a DOI, with no open-access
PDF URL. -/
def paperBoth : PaperData :=
  { paperId := some ("P1")
    title := some ("A Paper")
    externalIds := some { arxiv := some ("1234.5678"), doi := some ("10.1000/x1") }
    openAccessPdf := none }

/-- A paper carrying only a DOI. -/
def paperDoi : PaperData :=
  { paperId := some ("P2")
    title := some ("Another Paper")
    externalIds := some { arxiv := none, doi := some ("10.1000/x2") }
    openAccessPdf := none }

/-- A paper with both an open-access PDF URL and a valid arXiv id. -/
def paperOA : PaperData :=
  { paperId := some ("P3")
    title := some ("Third Paper")
    externalIds := some { arxiv := some ("2401.0001"), doi := some ("10.1000/x3") }
    openAccessPdf := some { url := some ("https://host/oa.pdf") } }

/-- A paper whose `openAccessPdf` object is present but has no `url` value
(absent key / null), with a DOI available for the fallback chain. -/
def paperNoUrl : PaperData :=
  { paperId := some ("P4")
    title := some ("Fourth Paper")
    externalIds := some { arxiv := none, doi := some ("10.1000/x4") }
    openAccessPdf := some { url := none } }

/-- Response sequence observed by `fetch_paper_details`: HTTP 429 on the
first three attempts, 200 with a body from the fourth attempt on. -/
def resp429x3 : Nat → ApiResp :=
  fun n => if n < 3 then ApiResp.status 429 else ApiResp.ok ("meta")

/-- Response sequence: HTTP 429 on the first two attempts, then 200. -/
def resp429x2 : Nat → ApiResp :=
  fun n => if n < 2 then ApiResp.status 429 else ApiResp.ok ("meta")

/-- A two-node citation graph (root `R` referencing `A`) with every download
succeeding. -/
def envA : CrawlEnv :=
  { fetchRes := fun p =>
      if p = "R" then some { references := [("A")], citations := [] }
      else if p = "A" then some { references := [], citations := [] }
      else none
    dl := fun _ => true }

/-- The citation graph of the depth-bound counterexample: node `X` is two
edges from `R` via `P` but three edges via `B`, `C`, and `Y` hangs below `X`
at distance three (via `P`). -/
def env5 : CrawlEnv :=
  { fetchRes := fun p =>
      if p = "R" then some { references := [("B"), ("P")], citations := [] }
      else if p = "P" then some { references := [("X")], citations := [] }
      else if p = "B" then some { references := [("C")], citations := [] }
      else if p = "C" then some { references := [("X")], citations := [] }
      else if p = "X" then some { references := [("Y")], citations := [] }
      else if p = "Y" then some { references := [], citations := [] }
      else none
    dl := fun _ => true }

/-- A schedule for `env5` corresponding to the realizable timing where the
metadata fetch for `P` is slow and the fetches along `B`, `C` are fast:
the branch through `C` reaches `X` first, with only depth 0 remaining. -/
def sched5 : List Nat :=
  [0, 0, 0, 0, 0, 1, 1, 1, 1, 1, 0, 0]

/-- Environment in which the metadata of `P` lists the single child `Q` and
every PDF download fails. -/
def env8 : CrawlEnv :=
  { fetchRes := fun p =>
      if p = "P" then some { references := [("Q")], citations := [] }
      else none
    dl := fun _ => false }

/-- The single-child metadata of `P` in `env8`. -/
def meta8 : PaperMeta :=
  { references := [("Q")], citations := [] }

/-- A mid-crawl state whose only pending task is a fetch of `P` at depth 1. -/
def s8 : CrawlState :=
  { visited := [("P")], fetched := [("P")], downloads := [], records := [],
    tasks := [CrawlTask.fetching ("P") 1] }

/-- A mid-crawl state whose only pending task is an unstarted invocation of
`P` at depth -1, with `P` not yet visited. -/
def s9 : CrawlState :=
  { visited := [], fetched := [], downloads := [], records := [],
    tasks := [CrawlTask.started ("P") (-1)] }

/-- The provider-call trace of the CORE step is at most the single CORE
call. -/
theorem coreStep_trace (p : Providers) (d : PaperData) :
    (coreStep p d).2 = [] ∨ (coreStep p d).2 = [Prov.core] := by
  unfold coreStep
  split
  · split
    · right; rfl
    · split
      · split
        · right; rfl
        · right; rfl
      · right; rfl
  · left; rfl

/-- The trace of the Unpaywall-then-CORE tail of the chain is an ordered
subsequence of `[unpaywall, core]`. -/
theorem unpaywallStep_trace (p : Providers) (d : PaperData) :
    List.Sublist (unpaywallStep p d).2 [Prov.unpaywall, Prov.core] := by
  have hc := coreStep_trace p d
  unfold unpaywallStep
  split
  · split
    · simp
    · split
      · split
        · simp
        · rcases hc with h | h <;> simp [h]
      · rcases hc with h | h <;> simp [h]
  · rcases hc with h | h <;> simp [h]

/-- The full fallback-chain trace is an ordered subsequence of
`[arxiv, unpaywall, core]`. -/
theorem try_alternative_sources_trace (p : Providers) (d : PaperData) :
    List.Sublist (try_alternative_sources p d).2 [Prov.arxiv, Prov.unpaywall, Prov.core] := by
  have hu := unpaywallStep_trace p d
  unfold try_alternative_sources
  split
  · split
    · simp
    · split
      · simp
      · simpa using List.Sublist.cons₂ Prov.arxiv hu
  · exact List.Sublist.cons Prov.arxiv hu

/-- The resolver issues provider calls only through the fallback chain: its
trace is either empty (open-access URL used directly) or the chain's own
trace. -/
theorem resolve_pdf_url_trace (p : Providers) (d : PaperData) :
    (resolve_pdf_url p d).2 = [] ∨
      (resolve_pdf_url p d).2 = (try_alternative_sources p d).2 := by
  unfold resolve_pdf_url
  dsimp only
  split
  · left; rfl
  · split
    · right; rfl
    · right; rfl

/-- When the metadata yields no truthy open-access URL, `download_pdf`
resolution is exactly the (truthiness-filtered) fallback chain. -/
theorem resolve_pdf_url_no_oa (p : Providers) (d : PaperData)
    (h : (match d.openAccessPdf with
          | some oap => oap.url
          | none => none) = (none : Option String)) :
    resolve_pdf_url p d =
      (if pyTruthy (try_alternative_sources p d).1 = true
        then ((try_alternative_sources p d).1, (try_alternative_sources p d).2)
        else (none, (try_alternative_sources p d).2)) := by
  unfold resolve_pdf_url
  rw [h]
  rfl

/-- C6: metadata carrying a truthy `openAccessPdf.url` resolves to exactly
that URL with no fallback-provider call issued (in particular no arXiv
probe), and whenever the fallback chain is consulted its provider calls
follow the fixed order arXiv, Unpaywall, CORE. -/
theorem C6_resolver_priority (p : Providers) (d : PaperData) :
    (∀ u : String, d.openAccessPdf = some { url := some u } → u ≠ "" →
        resolve_pdf_url p d = (some u, [])) ∧
    List.Sublist (resolve_pdf_url p d).2 [Prov.arxiv, Prov.unpaywall, Prov.core] := by
  constructor
  · intro u h hu
    unfold resolve_pdf_url
    rw [h]
    simp [pyTruthy, hu]
  · rcases resolve_pdf_url_trace p d with h | h <;> rw [h]
    · simp
    · exact try_alternative_sources_trace p d

/-- C6 witness: a concrete paper with both an open-access URL and a valid
arXiv id resolves to the open-access URL with an empty provider trace. -/
theorem C6_resolver_priority_witness :
    paperOA.openAccessPdf = some { url := some ("https://host/oa.pdf") } ∧
    resolve_pdf_url provAllOk paperOA = (some ("https://host/oa.pdf"), []) :=
  ⟨rfl, (C6_resolver_priority provAllOk paperOA).1 ("https://host/oa.pdf") rfl (by decide)⟩

/-- C10: an `openAccessPdf` object without a usable `url` value behaves
exactly like an absent `openAccessPdf`: `download_pdf` does not fail, the
alternative-source chain is consulted, and the resolution is a failure
exactly when that chain yields no truthy URL. -/
theorem C10_missing_url (p : Providers) (d : PaperData) (oap : OpenAccessPdf)
    (h : d.openAccessPdf = some oap) (hu : oap.url = none) :
    resolve_pdf_url p d = resolve_pdf_url p { d with openAccessPdf := none } ∧
    ((resolve_pdf_url p d).1 = none ↔
        pyTruthy (try_alternative_sources p d).1 = false) := by
  have halt : try_alternative_sources p { d with openAccessPdf := none }
      = try_alternative_sources p d := rfl
  constructor
  · rw [resolve_pdf_url_no_oa p d (by rw [h]; exact hu),
      resolve_pdf_url_no_oa p { d with openAccessPdf := none } rfl, halt]
  · rw [resolve_pdf_url_no_oa p d (by rw [h]; exact hu)]
    rcases hT : (try_alternative_sources p d).1 with _ | u
    · simp [pyTruthy]
    · by_cases hu2 : u = ""
      · simp [pyTruthy, hu2]
      · simp [pyTruthy, hu2]

/-- C10 witness: a concrete paper whose `openAccessPdf` carries no url
resolves identically to the same paper with `openAccessPdf` absent. -/
theorem C10_missing_url_witness :
    paperNoUrl.openAccessPdf = some { url := none } ∧
    resolve_pdf_url provAllOk paperNoUrl =
      resolve_pdf_url provAllOk { paperNoUrl with openAccessPdf := none } :=
  ⟨rfl, (C10_missing_url provAllOk paperNoUrl { url := none } rfl rfl).1⟩

/-- C3 counterexample: with the arXiv probe raising a network error while
Unpaywall has a direct PDF answer for the paper's DOI, the resolver returns
`None` and never consults Unpaywall or CORE - the chain does not continue
past the failing provider. -/
theorem C3_counterexample :
    try_alternative_sources provArxivDown paperBoth = (none, [Prov.arxiv]) ∧
    provArxivDown.unpaywallGet (orEmpty (doiOf paperBoth)) =
      Except.ok { status := 200, pdfUrl := some ("https://host/unpaywall.pdf") } ∧
    Prov.unpaywall ∉ (try_alternative_sources provArxivDown paperBoth).2 :=
  ⟨by decide, rfl, by decide⟩

/-- C3 (amended): an exception in any one fallback provider is swallowed
(the resolver returns `None` rather than raising) but aborts the entire
chain - the remaining providers are not consulted. -/
theorem C3_provider_exception (p : Providers) (d : PaperData) :
    (pyTruthy (arxivIdOf d) = true →
        p.arxivGet (arxivUrl (orEmpty (arxivIdOf d))) = Except.error () →
        try_alternative_sources p d = (none, [Prov.arxiv])) ∧
    (pyTruthy (doiOf d) = true →
        p.unpaywallGet (orEmpty (doiOf d)) = Except.error () →
        unpaywallStep p d = (none, [Prov.unpaywall])) ∧
    (pyTruthy (doiOf d) = true →
        p.coreGet (orEmpty (doiOf d)) = Except.error () →
        coreStep p d = (none, [Prov.core])) := by
  refine ⟨fun h1 h2 => ?_, fun h1 h2 => ?_, fun h1 h2 => ?_⟩
  · unfold try_alternative_sources
    rw [if_pos h1, h2]
  · unfold unpaywallStep
    rw [if_pos h1, h2]
  · unfold coreStep
    rw [if_pos h1, h2]

/-- C3 witness: a concrete paper with only a DOI, against providers whose
Unpaywall call raises: the chain stops at Unpaywall with `None`. -/
theorem C3_provider_exception_witness :
    pyTruthy (doiOf paperDoi) = true ∧
    unpaywallStep provUnpaywallDown paperDoi = (none, [Prov.unpaywall]) :=
  ⟨by decide, (C3_provider_exception provUnpaywallDown paperDoi).2.1 (by decide) rfl⟩

/-- C2 counterexample: with `retries = 3` the loop makes only three
attempts, so three consecutive 429 responses exhaust it - the 200 available
on the fourth attempt is never requested and the fetch yields `None` (after
sleeping 5, 10 and 15 seconds), not the parsed metadata the claim
predicts. -/
theorem C2_counterexample :
    resp429x3 3 = ApiResp.ok ("meta") ∧
    fetch_paper_details resp429x3 3 = (none, [5, 10, 15]) :=
  ⟨by decide, by decide⟩

/-- C2 (amended): with `maxRetries = 3` there are exactly three attempts:
two consecutive 429 responses followed by a 200 on the third attempt yield
the parsed metadata (after sleeping 5 then 10 seconds, i.e. `5 * n` after
the `n`-th 429), while a 429 on every attempt yields `None` - never a
raised exception - after sleeping 5, 10 and 15 seconds. -/
theorem C2_retry_amended (resp : Nat → ApiResp) (d : String) :
    (resp 0 = ApiResp.status 429 → resp 1 = ApiResp.status 429 →
        resp 2 = ApiResp.ok d →
        fetch_paper_details resp 3 = (some d, [5, 10])) ∧
    ((∀ n, n < 3 → resp n = ApiResp.status 429) →
        fetch_paper_details resp 3 = (none, [5, 10, 15])) := by
  constructor
  · intro h0 h1 h2
    simp [fetch_paper_details, fetchGo, h0, h1, h2]
  · intro h
    simp [fetch_paper_details, fetchGo,
      h 0 (by norm_num), h 1 (by norm_num), h 2 (by norm_num)]

/-- C2 witness: a concrete response stream with two 429s then a 200 yields
the metadata with backoff sleeps of 5 and 10 seconds. -/
theorem C2_retry_amended_witness :
    resp429x2 0 = ApiResp.status 429 ∧
    fetch_paper_details resp429x2 3 = (some ("meta"), [5, 10]) :=
  ⟨rfl, (C2_retry_amended resp429x2 ("meta")).1 rfl rfl rfl⟩

/-- The collision loop of `download_pdf`, started at candidate `j`, skips
every occupied candidate and stops at the first free one. -/
theorem collisionGo_spec (existing : List String) (base ext : String) (k : Nat)
    (hfree : cand base ext k ∉ existing) :
    ∀ fuel j, j ≤ k → (∀ i, j ≤ i → i < k → cand base ext i ∈ existing) →
      k - j < fuel →
      collisionGo existing base ext (cand base ext j) (j + 1) fuel = cand base ext k := by
  intro fuel
  induction fuel with
  | zero => intro j _ _ hf; omega
  | succ f ih =>
    intro j hj hmem hf
    rcases Nat.eq_or_lt_of_le hj with heq | hlt
    · subst heq
      unfold collisionGo
      simp [hfree]
    · have hin : cand base ext j ∈ existing := hmem j le_rfl hlt
      unfold collisionGo
      rw [if_pos hin]
      have hc : base ++ "_" ++ toString (j + 1) ++ ext = cand base ext (j + 1) := rfl
      rw [hc]
      exact ih (j + 1) hlt (fun i h1 h2 => hmem i (by omega) h2) (by omega)

/-- C7: when the base name and its `_1 ... _(k-1)` variants already exist on
disk and the `_k` variant is free, the collision loop (given enough
iterations) saves under the `_k` variant, which is not an existing file -
so a second download colliding with one existing file gets `_1`, and no
existing file is ever overwritten. -/
theorem C7_collision (existing : List String) (base ext : String) (k fuel : Nat)
    (hbase : cand base ext 0 ∈ existing)
    (hmid : ∀ i, 1 ≤ i → i < k → cand base ext i ∈ existing)
    (hfree : cand base ext k ∉ existing)
    (hfuel : k < fuel) :
    collision_avoid existing base ext fuel = cand base ext k ∧
      cand base ext k ∉ existing := by
  refine ⟨?_, hfree⟩
  have h0 : collision_avoid existing base ext fuel
      = collisionGo existing base ext (cand base ext 0) (0 + 1) fuel := rfl
  rw [h0]
  refine collisionGo_spec existing base ext k hfree fuel 0 (Nat.zero_le k) ?_ (by omega)
  intro i h1 h2
  rcases Nat.eq_zero_or_pos i with h | h
  · subst h; exact hbase
  · exact hmid i h h2

/-- C7 witness: with `paper.pdf` and `paper_1.pdf` on disk, the next
download of the same base name is saved as `paper_2.pdf`. -/
theorem C7_collision_witness :
    cand ("paper") (".pdf") 0 ∈ [("paper.pdf"), ("paper_1.pdf")] ∧
    collision_avoid [("paper.pdf"), ("paper_1.pdf")] ("paper") (".pdf") 5
      = cand ("paper") (".pdf") 2 := by
  refine ⟨by decide, ?_⟩
  refine (C7_collision [("paper.pdf"), ("paper_1.pdf")] ("paper") (".pdf") 2 5
    (by decide) ?_ (by decide) (by decide)).1
  intro i h1 h2
  have hi : i = 1 := by omega
  subst hi
  decide


theorem get_split {α : Type} (l : List α) (i : Nat) (t : α) (h : l.get? i = some t) :
    ∃ l1 l2, l = l1 ++ t :: l2 ∧ l.eraseIdx i = l1 ++ l2 := by
  induction l generalizing i with
  | nil => simp at h
  | cons a as ih =>
    cases i with
    | zero =>
      simp at h
      subst h
      exact ⟨[], as, rfl, rfl⟩
    | succ n =>
      obtain ⟨l1, l2, hl, he⟩ := ih n (by simpa using h)
      exact ⟨a :: l1, l2, by rw [List.cons_append, ← hl], by simp [List.eraseIdx_cons_succ, he]⟩

theorem fpids_append (l1 l2 : List CrawlTask) :
    fpids (l1 ++ l2) = fpids l1 ++ fpids l2 :=
  List.filterMap_append l1 l2 _

theorem fpids_map_started (ids : List String) (d : Int) :
    fpids (ids.map (fun c => CrawlTask.started c d)) = [] := by
  induction ids with
  | nil => rfl
  | cons a as ih => simp [fpids, List.filterMap_cons] at ih ⊢

theorem dedupInv_retask_sub (s : CrawlState) (ts : List CrawlTask)
    (hfp : List.Sublist (fpids ts) (fpids s.tasks)) (h : DedupInv s) :
    DedupInv { s with tasks := ts } :=
  ⟨h.fetched_nodup, h.downloads_nodup, h.fpids_nodup.sublist hfp, h.fetched_vis,
    fun p hp => h.fpids_fetched p (hfp.subset hp), h.downloads_fetched,
    fun p hp hq => h.downloads_fpids p hp (hfp.subset hq)⟩


theorem dedupInv_step (env : CrawlEnv) (s : CrawlState) (i : Nat) (h : DedupInv s) :
    DedupInv (step env s i) := by
  unfold step
  cases hg : s.tasks.get? i with
  | none => exact h
  | some t =>
    obtain ⟨l1, l2, hl, he⟩ := get_split s.tasks i t hg
    rw [he]
    dsimp only
    cases t with
    | started pid depth =>
      have hfp : fpids s.tasks = fpids l1 ++ fpids l2 := by
        rw [hl, fpids_append]
        simp [fpids, List.filterMap_cons]
      unfold stepTask
      dsimp only
      by_cases hc : pid ∈ s.visited ∨ depth < 0
      · rw [if_pos hc]
        refine dedupInv_retask_sub s (l1 ++ l2) ?_ h
        rw [fpids_append, ← hfp]
      · rw [if_neg hc]
        push_neg at hc
        obtain ⟨hv, hd⟩ := hc
        have hpf : pid ∉ s.fetched := fun hmem => hv (h.fetched_vis pid hmem)
        have hfpn : fpids ((l1 ++ l2) ++ [CrawlTask.fetching pid depth])
            = fpids s.tasks ++ [pid] := by
          rw [fpids_append, fpids_append, ← hfp]
          rfl
        constructor
        · rw [List.nodup_append]
          refine ⟨h.fetched_nodup, List.nodup_singleton pid, ?_⟩
          intro a ha hb
          rw [List.mem_singleton] at hb
          exact hpf (hb ▸ ha)
        · exact h.downloads_nodup
        · rw [hfpn, List.nodup_append]
          refine ⟨h.fpids_nodup, List.nodup_singleton pid, ?_⟩
          intro a ha hb
          rw [List.mem_singleton] at hb
          exact hv (h.fetched_vis pid (h.fpids_fetched pid (hb ▸ ha)))
        · intro p hp
          rcases List.mem_append.mp hp with h1 | h1
          · exact List.mem_append.mpr (Or.inl (h.fetched_vis p h1))
          · exact List.mem_append.mpr (Or.inr h1)
        · intro p hp
          rw [hfpn] at hp
          rcases List.mem_append.mp hp with h1 | h1
          · exact List.mem_append.mpr (Or.inl (h.fpids_fetched p h1))
          · exact List.mem_append.mpr (Or.inr h1)
        · intro p hp
          exact List.mem_append.mpr (Or.inl (h.downloads_fetched p hp))
        · intro p hp hq
          rw [hfpn] at hq
          rcases List.mem_append.mp hq with h1 | h1
          · exact h.downloads_fpids p hp h1
          · rw [List.mem_singleton] at h1
            exact hv (h.fetched_vis pid (h.downloads_fetched pid (h1 ▸ hp)))
    | fetching pid depth =>
      have hfp : fpids s.tasks = fpids l1 ++ pid :: fpids l2 := by
        rw [hl, fpids_append]
        simp [fpids, List.filterMap_cons]
      have hmid : (pid :: (fpids l1 ++ fpids l2)).Nodup :=
        List.nodup_middle.mp (hfp ▸ h.fpids_nodup)
      have hpid_not : pid ∉ fpids l1 ++ fpids l2 := (List.nodup_cons.mp hmid).1
      have hrest_nodup : (fpids l1 ++ fpids l2).Nodup := (List.nodup_cons.mp hmid).2
      have hpid_mem : pid ∈ fpids s.tasks := by
        rw [hfp]
        simp
      have hsub : List.Sublist (fpids l1 ++ fpids l2) (fpids s.tasks) := by
        rw [hfp]
        exact List.Sublist.append_left (List.sublist_cons_self pid (fpids l2)) (fpids l1)
      unfold stepTask
      dsimp only
      cases hf : env.fetchRes pid with
      | none =>
        refine dedupInv_retask_sub s (l1 ++ l2) ?_ h
        rw [fpids_append]
        exact hsub
      | some m =>
        have hfpn : fpids ((l1 ++ l2) ++ (childIds m).map (fun c => CrawlTask.started c (depth - 1)))
            = fpids l1 ++ fpids l2 := by
          rw [fpids_append, fpids_append, fpids_map_started, List.append_nil]
        have hpd : pid ∉ s.downloads := fun hmem => h.downloads_fpids pid hmem hpid_mem
        constructor
        · exact h.fetched_nodup
        · rw [List.nodup_append]
          refine ⟨h.downloads_nodup, List.nodup_singleton pid, ?_⟩
          intro a ha hb
          rw [List.mem_singleton] at hb
          exact hpd (hb ▸ ha)
        · rw [hfpn]
          exact hrest_nodup
        · exact h.fetched_vis
        · intro p hp
          rw [hfpn] at hp
          exact h.fpids_fetched p (hsub.subset hp)
        · intro p hp
          rcases List.mem_append.mp hp with h1 | h1
          · exact h.downloads_fetched p h1
          · rw [List.mem_singleton] at h1
            rw [h1]
            exact h.fpids_fetched pid hpid_mem
        · intro p hp hq
          rw [hfpn] at hq
          rcases List.mem_append.mp hp with h1 | h1
          · exact h.downloads_fpids p h1 (hsub.subset hq)
          · rw [List.mem_singleton] at h1
            exact hpid_not (h1 ▸ hq)


theorem dedupInv_run (env : CrawlEnv) (s : CrawlState) (sched : List Nat)
    (h : DedupInv s) : DedupInv (run env s sched) := by
  induction sched generalizing s with
  | nil => exact h
  | cons i rest ih => exact ih (step env s i) (dedupInv_step env s i h)

theorem dedupInv_init (root : String) (d : Int) : DedupInv (initState root d) := by
  constructor <;> simp [initState, fpids]

/-- C1: in every crawl run, over any citation graph and any scheduling of
the concurrent branches, the metadata-fetch trace and the download trace
contain each PaperId at most once; every fetched id was marked visited
(the mark precedes the fetch), and every downloaded id was fetched. -/
theorem C1_dedup (env : CrawlEnv) (root : String) (d : Int) (sched : List Nat) :
    (run env (initState root d) sched).fetched.Nodup ∧
    (run env (initState root d) sched).downloads.Nodup ∧
    (∀ p, p ∈ (run env (initState root d) sched).fetched →
        p ∈ (run env (initState root d) sched).visited) ∧
    (∀ p, p ∈ (run env (initState root d) sched).downloads →
        p ∈ (run env (initState root d) sched).fetched) := by
  have h := dedupInv_run env (initState root d) sched (dedupInv_init root d)
  exact ⟨h.fetched_nodup, h.downloads_nodup, h.fetched_vis, h.downloads_fetched⟩

/-- C1 witness: in a concrete completed two-node crawl, the fetch trace is
duplicate-free and the fetched root was marked visited. -/
theorem C1_dedup_witness :
    ("R") ∈ (run envA (initState ("R") 1) [0, 0, 0, 0]).fetched ∧
    ("R") ∈ (run envA (initState ("R") 1) [0, 0, 0, 0]).visited :=
  ⟨by decide, (C1_dedup envA ("R") 1 [0, 0, 0, 0]).2.2.1 ("R") (by decide)⟩

theorem reachIn_zero (env : CrawlEnv) (root p : String)
    (h : ReachIn env root 0 p) : p = root := by
  cases h
  rfl

theorem reachInv_step (env : CrawlEnv) (root : String) (N : Int) (s : CrawlState) (i : Nat)
    (h : ReachInv env root N s) : ReachInv env root N (step env s i) := by
  unfold step
  cases hg : s.tasks.get? i with
  | none => exact h
  | some t =>
    obtain ⟨l1, l2, hl, he⟩ := get_split s.tasks i t hg
    rw [he]
    dsimp only
    have htk : ReachTask env root N t := h.tsk t (by rw [hl]; simp)
    have hmem : ∀ t2, t2 ∈ l1 ++ l2 → t2 ∈ s.tasks := by
      intro t2 ht2
      rw [hl]
      rcases List.mem_append.mp ht2 with h1 | h1
      · exact List.mem_append.mpr (Or.inl h1)
      · exact List.mem_append.mpr (Or.inr (List.mem_cons_of_mem _ h1))
    cases t with
    | started pid depth =>
      unfold stepTask
      dsimp only
      by_cases hc : pid ∈ s.visited ∨ depth < 0
      · rw [if_pos hc]
        exact ⟨h.vis, fun t2 ht2 => h.tsk t2 (hmem t2 ht2)⟩
      · rw [if_neg hc]
        push_neg at hc
        obtain ⟨hv, hd⟩ := hc
        obtain ⟨k, hdk, hrk⟩ := htk
        simp only [taskDepth, taskPid] at hdk hrk
        constructor
        · intro p hp
          rcases List.mem_append.mp hp with h1 | h1
          · exact h.vis p h1
          · rw [List.mem_singleton] at h1
            rw [h1]
            refine ⟨k, ?_, hrk⟩
            omega
        · intro t2 ht2
          rcases List.mem_append.mp ht2 with h1 | h1
          · exact h.tsk t2 (hmem t2 h1)
          · rw [List.mem_singleton] at h1
            rw [h1]
            exact ⟨k, hdk, hrk⟩
    | fetching pid depth =>
      unfold stepTask
      dsimp only
      obtain ⟨k, hdk, hrk⟩ := htk
      simp only [taskDepth, taskPid] at hdk hrk
      cases hf : env.fetchRes pid with
      | none => exact ⟨h.vis, fun t2 ht2 => h.tsk t2 (hmem t2 ht2)⟩
      | some m =>
        refine ⟨h.vis, ?_⟩
        intro t2 ht2
        rcases List.mem_append.mp ht2 with h1 | h1
        · exact h.tsk t2 (hmem t2 h1)
        · obtain ⟨c, hcmem, hceq⟩ := List.mem_map.mp h1
          rw [← hceq]
          refine ⟨k + 1, ?_, ?_⟩
          · simp only [taskDepth]
            push_cast
            omega
          · simp only [taskPid]
            refine ReachIn.step hrk ?_
            rw [children, hf]
            exact hcmem

theorem reachInv_run (env : CrawlEnv) (root : String) (N : Int) (s : CrawlState)
    (sched : List Nat) (h : ReachInv env root N s) : ReachInv env root N (run env s sched) := by
  induction sched generalizing s with
  | nil => exact h
  | cons i rest ih => exact ih (step env s i) (reachInv_step env root N s i h)

theorem reachInv_init (env : CrawlEnv) (root : String) (N : Int) :
    ReachInv env root N (initState root N) := by
  constructor
  · intro p hp
    simp [initState] at hp
  · intro t ht
    simp [initState] at ht
    rw [ht]
    exact ⟨0, by simp [taskDepth], by simpa [taskPid] using ReachIn.refl⟩

theorem negInv_step (env : CrawlEnv) (s : CrawlState) (i : Nat)
    (h : NegInv s) : NegInv (step env s i) := by
  unfold step
  cases hg : s.tasks.get? i with
  | none => exact h
  | some t =>
    obtain ⟨l1, l2, hl, he⟩ := get_split s.tasks i t hg
    rw [he]
    dsimp only
    obtain ⟨hv, hf, hd, hr, ht⟩ := h
    have hmem : ∀ t2, t2 ∈ l1 ++ l2 → t2 ∈ s.tasks := by
      intro t2 ht2
      rw [hl]
      rcases List.mem_append.mp ht2 with h1 | h1
      · exact List.mem_append.mpr (Or.inl h1)
      · exact List.mem_append.mpr (Or.inr (List.mem_cons_of_mem _ h1))
    obtain ⟨p, dd, hteq, hneg⟩ := ht t (by rw [hl]; simp)
    rw [hteq]
    unfold stepTask
    dsimp only
    rw [if_pos (Or.inr hneg)]
    exact ⟨hv, hf, hd, hr, fun t2 ht2 => ht t2 (hmem t2 ht2)⟩

theorem negInv_run (env : CrawlEnv) (s : CrawlState) (sched : List Nat)
    (h : NegInv s) : NegInv (run env s sched) := by
  induction sched generalizing s with
  | nil => exact h
  | cons i rest ih => exact ih (step env s i) (negInv_step env s i h)

/-- C5 (amended): a depth-0 crawl processes only the root; a negative-depth
crawl processes nothing at all; a depth-N crawl processes only nodes within
N reference/citation edges of the root - but not necessarily all of them,
since a node first reached along a longer path that exhausts the remaining
depth is skipped (see the counterexample). -/
theorem C5_depth_bound (env : CrawlEnv) (root : String) (sched : List Nat) :
    (∀ p, p ∈ (run env (initState root 0) sched).visited → p = root) ∧
    (∀ d : Int, d < 0 →
        (run env (initState root d) sched).visited = [] ∧
        (run env (initState root d) sched).fetched = [] ∧
        (run env (initState root d) sched).downloads = [] ∧
        (run env (initState root d) sched).records = []) ∧
    (∀ N : Nat, ∀ p, p ∈ (run env (initState root (N : Int)) sched).visited →
        ∃ k : Nat, k ≤ N ∧ ReachIn env root k p) := by
  have main : ∀ N : Nat, ∀ p, p ∈ (run env (initState root (N : Int)) sched).visited →
      ∃ k : Nat, k ≤ N ∧ ReachIn env root k p := by
    intro N p hp
    have h := reachInv_run env root (N : Int) (initState root (N : Int)) sched
      (reachInv_init env root (N : Int))
    obtain ⟨k, hk, hr⟩ := h.vis p hp
    exact ⟨k, by exact_mod_cast hk, hr⟩
  refine ⟨?_, ?_, main⟩
  · intro p hp
    obtain ⟨k, hk, hr⟩ := main 0 p hp
    have hk0 : k = 0 := by omega
    rw [hk0] at hr
    exact reachIn_zero env root p hr
  · intro d hd
    have h0 : NegInv (initState root d) := by
      refine ⟨rfl, rfl, rfl, rfl, ?_⟩
      intro t ht
      simp [initState] at ht
      exact ⟨root, d, ht, hd⟩
    have h := negInv_run env (initState root d) sched h0
    exact ⟨h.1, h.2.1, h.2.2.1, h.2.2.2.1⟩

/-- C5 counterexample: in the graph of `env5` the node `Y` lies exactly
three edges from the root `R` (via `P` and `X`), yet a depth-3 crawl that
runs to completion under the realizable schedule `sched5` (slow fetch for
`P`, fast fetches along `B`, `C`) never visits `Y`: `X` is first reached
along the longer path with remaining depth 0, so its child `Y` is never
dispatched with a usable depth. -/
theorem C5_counterexample :
    (run env5 (initState ("R") 3) sched5).tasks = [] ∧
    ReachIn env5 ("R") 3 ("Y") ∧
    ("Y") ∉ (run env5 (initState ("R") 3) sched5).visited := by
  refine ⟨by decide, ?_, by decide⟩
  have h1 : ReachIn env5 ("R") 1 ("P") := ReachIn.step ReachIn.refl (by decide)
  have h2 : ReachIn env5 ("R") 2 ("X") := ReachIn.step h1 (by decide)
  exact ReachIn.step h2 (by decide)

/-- C5 witness: in a concrete depth-1 crawl the visited non-root node `A`
is indeed within one edge of the root. -/
theorem C5_depth_bound_witness :
    ("A") ∈ (run envA (initState ("R") 1) [0, 0, 0, 0]).visited ∧
    ∃ k : Nat, k ≤ 1 ∧ ReachIn envA ("R") k ("A") :=
  ⟨by decide, (C5_depth_bound envA ("R") [0, 0, 0, 0]).2.2 1 ("A") (by decide)⟩

/-- C8: a node whose metadata fetch succeeded but whose download failed
contributes no record, while its references and citations are dispatched as
child invocations at `depth - 1` exactly as they would be for a
successfully downloaded node (the dispatched tasks do not depend on the
download outcome). -/
theorem C8_failed_download (env : CrawlEnv) (s : CrawlState) (i : Nat)
    (pid : String) (d : Int) (m : PaperMeta)
    (ht : s.tasks.get? i = some (CrawlTask.fetching pid d))
    (hf : env.fetchRes pid = some m) (hd : env.dl pid = false) :
    (step env s i).records = s.records ∧
    (step env s i).tasks =
      s.tasks.eraseIdx i ++ (childIds m).map (fun c => CrawlTask.started c (d - 1)) ∧
    ∀ env2 : CrawlEnv, env2.fetchRes pid = some m →
      (step env2 s i).tasks = (step env s i).tasks := by
  have hstep : step env s i =
      { s with
        downloads := s.downloads ++ [pid]
        records := s.records
        tasks := s.tasks.eraseIdx i ++ (childIds m).map (fun c => CrawlTask.started c (d - 1)) } := by
    unfold step
    rw [ht]
    dsimp only
    unfold stepTask
    dsimp only
    rw [hf, hd]
    simp
  have htasks : ∀ env2 : CrawlEnv, env2.fetchRes pid = some m →
      (step env2 s i).tasks =
        s.tasks.eraseIdx i ++ (childIds m).map (fun c => CrawlTask.started c (d - 1)) := by
    intro env2 h2
    unfold step
    rw [ht]
    dsimp only
    unfold stepTask
    dsimp only
    rw [h2]
  refine ⟨?_, ?_, ?_⟩
  · rw [hstep]
  · rw [hstep]
  · intro env2 h2
    rw [htasks env2 h2, htasks env hf]

/-- C8 witness: a concrete fetch of `P` whose download fails adds no record
and still dispatches the child `Q` at depth 0. -/
theorem C8_failed_download_witness :
    env8.dl ("P") = false ∧
    (step env8 s8 0).records = s8.records ∧
    (step env8 s8 0).tasks = s8.tasks.eraseIdx 0 ++ [CrawlTask.started ("Q") 0] := by
  have h := C8_failed_download env8 s8 0 ("P") 1 meta8 rfl rfl rfl
  refine ⟨rfl, h.1, ?_⟩
  rw [h.2.1]
  rfl

/-- C9: resuming an invocation whose id is already visited, or whose depth
is negative, only removes that pending task: visited set, fetch trace,
download trace and records are all unchanged, and in the negative-depth
case the id is still unvisited afterwards, so it can be fully processed
later via another path. -/
theorem C9_skip_frame (env : CrawlEnv) (s : CrawlState) (i : Nat) (pid : String) (d : Int)
    (ht : s.tasks.get? i = some (CrawlTask.started pid d))
    (h : pid ∈ s.visited ∨ d < 0) :
    step env s i = { s with tasks := s.tasks.eraseIdx i } ∧
    (pid ∉ s.visited → pid ∉ (step env s i).visited) := by
  have h1 : step env s i = { s with tasks := s.tasks.eraseIdx i } := by
    unfold step
    rw [ht]
    dsimp only
    unfold stepTask
    dsimp only
    rw [if_pos h]
  refine ⟨h1, ?_⟩
  intro hn
  rw [h1]
  exact hn

/-- C9 witness: a concrete negative-depth invocation of an unvisited id
leaves the id unvisited. -/
theorem C9_skip_frame_witness :
    ((-1 : Int) < 0) ∧ ("P") ∉ (step env8 s9 0).visited := by
  have h := C9_skip_frame env8 s9 0 ("P") (-1) rfl (Or.inr (by decide))
  exact ⟨by decide, h.2 (by decide)⟩

end LitReview
